import Mathlib

/- Shallow embedding of src/src/rrt0.c : the mruby/c realtime task monitor.

   The intrusive singly linked task queues of the C code are modelled as Lean
   lists of `MrbcTcb` records.  The pointer identity of a TCB is modelled by
   the `id` field; a write through a TCB pointer performed after the TCB has
   been enqueued (e.g. `tcb->vm->flag_preemption = 1`) is modelled by mapping
   over all queues with `mapTcbById`.  The opaque VM handle is modelled by the
   `vmId` field together with the `vm_open` flag (`mrbc_vm_close` followed by
   `tcb->vm = 0` becomes `vm_open := false`), and the VM-visible preemption
   flag `tcb->vm->flag_preemption` by the `flag_preemption` field.  The
   `uint32_t` tick counter and `uint8_t` priorities are `Nat`s reduced
   explicitly modulo 2^32 / 2^8 where the C performs a conversion. -/

/-- Task states, from rrt0.h as used by rrt0.c (TASKSTATE_DOMANT etc.).
    The `default: assert(!"Wrong task state.")` branches of the C switch
    statements are unreachable here because the enumeration is exact. -/
inductive TaskState where
  | DOMANT
  | READY
  | RUNNING
  | WAITING
  | SUSPENDED
deriving DecidableEq

/-- Wait reasons (TASKREASON_SLEEP, TASKREASON_MUTEX); `NONE` stands for the
    field value of a task that has never waited. -/
inductive TaskReason where
  | SLEEP
  | MUTEX
  | NONE
deriving DecidableEq

/-- Task control block.  `mutex` is the identity of the awaited MrbcMutex
    (the C stores a pointer). -/
structure MrbcTcb where
  id : Nat
  state : TaskState
  priority : Nat
  priority_preemption : Nat
  timeslice : Nat
  reason : TaskReason
  wakeup_tick : Nat
  mutex : Nat
  vmId : Nat
  flag_preemption : Bool
  vm_open : Bool
deriving DecidableEq

/-- The scheduler's global state: the four queue heads and the tick counter
    (q_domant_, q_ready_, q_waiting_, q_suspended_, tick_). -/
structure SchedState where
  q_domant : List MrbcTcb
  q_ready : List MrbcTcb
  q_waiting : List MrbcTcb
  q_suspended : List MrbcTcb
  tick : Nat
deriving DecidableEq

/-- Mutex record: `lock` flag and owner TCB (by identity), plus its own
    identity standing for the C pointer. -/
structure MrbcMutex where
  id : Nat
  lock : Bool
  tcbId : Nat
deriving DecidableEq

def TIMESLICE_TICK : Nat := 10

def UINT32_LIMIT : Nat := 4294967296

/-- C conversion of a signed int to uint32_t. -/
def toU32 (n : Int) : Nat := (n % 4294967296).toNat

/-- C conversion of a signed int to uint8_t. -/
def toU8 (n : Int) : Nat := (n % 256).toNat

/-- Which of the four queues a task state selects (the switch shared by
    q_insert_task and q_delete_task): READY and RUNNING share the ready
    queue. -/
def queue_of : TaskState → Nat
  | .DOMANT => 0
  | .READY => 1
  | .RUNNING => 1
  | .WAITING => 2
  | .SUSPENDED => 3

def getQueue (st : TaskState) (s : SchedState) : List MrbcTcb :=
  match st with
  | .DOMANT => s.q_domant
  | .READY => s.q_ready
  | .RUNNING => s.q_ready
  | .WAITING => s.q_waiting
  | .SUSPENDED => s.q_suspended

def setQueue (st : TaskState) (s : SchedState) (q : List MrbcTcb) : SchedState :=
  match st with
  | .DOMANT => {s with q_domant := q}
  | .READY => {s with q_ready := q}
  | .RUNNING => {s with q_ready := q}
  | .WAITING => {s with q_waiting := q}
  | .SUSPENDED => {s with q_suspended := q}

/-- The list insertion performed by q_insert_task: insert on top when the new
    TCB's priority_preemption is strictly below the head's, otherwise walk
    until the next element is strictly greater (or the list ends) and insert
    there. -/
def q_insert_list (x : MrbcTcb) : List MrbcTcb → List MrbcTcb
  | [] => [x]
  | y :: ys =>
      if x.priority_preemption < y.priority_preemption then x :: y :: ys
      else y :: q_insert_list x ys

/-- The list removal performed by q_delete_task: unlink the first
    pointer-equal entry, leave the list unchanged when it is absent. -/
def q_delete_list (i : Nat) : List MrbcTcb → List MrbcTcb
  | [] => []
  | y :: ys => if y.id = i then ys else y :: q_delete_list i ys

/-- q_insert_task of rrt0.c: insert the TCB into the queue selected by its
    state, keeping priority_preemption order with FIFO ties. -/
def q_insert_task (t : MrbcTcb) (s : SchedState) : SchedState :=
  setQueue t.state s (q_insert_list t (getQueue t.state s))

/-- q_delete_task of rrt0.c: remove the TCB (by pointer identity) from the
    queue selected by its state. -/
def q_delete_task (t : MrbcTcb) (s : SchedState) : SchedState :=
  setQueue t.state s (q_delete_list t.id (getQueue t.state s))

/-- A write through a TCB pointer after the TCB may already sit on a queue:
    apply `f` to every queued copy with the given identity. -/
def mapTcbById (i : Nat) (f : MrbcTcb → MrbcTcb) (s : SchedState) : SchedState :=
  { q_domant := s.q_domant.map (fun t => if t.id = i then f t else t)
    q_ready := s.q_ready.map (fun t => if t.id = i then f t else t)
    q_waiting := s.q_waiting.map (fun t => if t.id = i then f t else t)
    q_suspended := s.q_suspended.map (fun t => if t.id = i then f t else t)
    tick := s.tick }

/-- The preemption sweep loop shared by mrbc_tick, mrbc_resume_task and
    mrbc_mutex_unlock: set the preemption flag of every RUNNING task on the
    given queue. -/
def flag_running (q : List MrbcTcb) : List MrbcTcb :=
  q.map (fun u => if u.state = TaskState.RUNNING then {u with flag_preemption := true} else u)

/-- find_requested_task of rrt0.c: linear scan of the ready queue for the TCB
    owning the given VM. -/
def find_requested_task (vm : Nat) (s : SchedState) : Option MrbcTcb :=
  s.q_ready.find? (fun t => t.vmId = vm)

/-- mrbc_sleep_ms of rrt0.c.  Returns the final value of the pointed TCB
    together with the new scheduler state. -/
def mrbc_sleep_ms (tcb : MrbcTcb) (ms : Nat) (s : SchedState) : MrbcTcb × SchedState :=
  let s1 := q_delete_task tcb s
  let t := {tcb with timeslice := 0, state := TaskState.WAITING,
                     reason := TaskReason.SLEEP,
                     wakeup_tick := (s.tick + ms) % UINT32_LIMIT}
  let s2 := q_insert_task t s1
  ({t with flag_preemption := true},
   mapTcbById t.id (fun u => {u with flag_preemption := true}) s2)

/-- mrbc_relinquish of rrt0.c. -/
def mrbc_relinquish (tcb : MrbcTcb) (s : SchedState) : MrbcTcb × SchedState :=
  ({tcb with timeslice := 0, flag_preemption := true},
   mapTcbById tcb.id (fun u => {u with timeslice := 0, flag_preemption := true}) s)

/-- mrbc_change_priority of rrt0.c. -/
def mrbc_change_priority (tcb : MrbcTcb) (p : Int) (s : SchedState) : MrbcTcb × SchedState :=
  ({tcb with priority := toU8 p, priority_preemption := toU8 p,
             timeslice := 0, flag_preemption := true},
   mapTcbById tcb.id
     (fun u => {u with priority := toU8 p, priority_preemption := toU8 p,
                       timeslice := 0, flag_preemption := true}) s)

/-- mrbc_suspend_task of rrt0.c: detach, set SUSPENDED, insert on the
    suspended queue, then set the preemption flag through the pointer. -/
def mrbc_suspend_task (tcb : MrbcTcb) (s : SchedState) : MrbcTcb × SchedState :=
  let s1 := q_delete_task tcb s
  let t := {tcb with state := TaskState.SUSPENDED}
  let s2 := q_insert_task t s1
  ({t with flag_preemption := true},
   mapTcbById t.id (fun u => {u with flag_preemption := true}) s2)

/-- mrbc_resume_task of rrt0.c: flag every RUNNING task on the ready queue,
    then detach the TCB, set READY and insert on the ready queue. -/
def mrbc_resume_task (tcb : MrbcTcb) (s : SchedState) : MrbcTcb × SchedState :=
  let s1 := {s with q_ready := flag_running s.q_ready}
  let s2 := q_delete_task tcb s1
  let t := {tcb with state := TaskState.READY}
  (t, q_insert_task t s2)

/-- mrbc_mutex_lock of rrt0.c (always returns 0).  Returns the new mutex, the
    final value of the pointed TCB and the new scheduler state. -/
def mrbc_mutex_lock (m : MrbcMutex) (tcb : MrbcTcb) (s : SchedState) :
    MrbcMutex × MrbcTcb × SchedState :=
  if m.lock = false then
    ({m with lock := true, tcbId := tcb.id}, tcb, s)
  else
    let s1 := q_delete_task tcb s
    let t := {tcb with state := TaskState.WAITING, reason := TaskReason.MUTEX,
                       mutex := m.id}
    let s2 := q_insert_task t s1
    (m, {t with flag_preemption := true},
     mapTcbById t.id (fun u => {u with flag_preemption := true}) s2)

/-- mrbc_mutex_unlock of rrt0.c, after its two asserts (owner and lock, taken
    as hypotheses by the theorems): wake the first waiter whose reason is
    MUTEX and whose recorded mutex is this one; if none, clear the lock. -/
def mrbc_mutex_unlock (m : MrbcMutex) (s : SchedState) : MrbcMutex × SchedState :=
  match s.q_waiting.find? (fun t => decide (t.reason = TaskReason.MUTEX ∧ t.mutex = m.id)) with
  | some t =>
      let m1 := {m with tcbId := t.id}
      let s1 := q_delete_task t s
      let t1 := {t with state := TaskState.READY}
      let s2 := q_insert_task t1 s1
      (m1, {s2 with q_ready := flag_running s2.q_ready})
  | none => ({m with lock := false}, s)

/-- mrbc_mutex_trylock of rrt0.c. -/
def mrbc_mutex_trylock (m : MrbcMutex) (tcb : MrbcTcb) : MrbcMutex × Int :=
  if m.lock = false then ({m with lock := true, tcbId := tcb.id}, 0)
  else (m, 1)

/-- The waiting-queue walk of mrbc_tick: iterate over a snapshot of the
    waiting queue (the C snapshots tcb->next before mutating), waking every
    sleeper whose wakeup_tick equals the new tick value. -/
def tick_wake (tk : Nat) : List MrbcTcb → SchedState → Bool → SchedState × Bool
  | [], s, f => (s, f)
  | t :: rest, s, f =>
      if t.reason = TaskReason.SLEEP ∧ t.wakeup_tick = tk then
        let s1 := q_delete_task t s
        let t1 := {t with state := TaskState.READY, timeslice := TIMESLICE_TICK}
        tick_wake tk rest (q_insert_task t1 s1) true
      else tick_wake tk rest s f

/-- mrbc_tick of rrt0.c: bump the counter, decay the running head's
    timeslice, wake due sleepers, and sweep preemption flags if any woke. -/
def mrbc_tick (s : SchedState) : SchedState :=
  let tk := (s.tick + 1) % UINT32_LIMIT
  let s0 := {s with tick := tk}
  let s1 :=
    match s0.q_ready with
    | [] => s0
    | t :: rest =>
        if t.state = TaskState.RUNNING ∧ 0 < t.timeslice then
          {s0 with q_ready :=
            {t with timeslice := t.timeslice - 1,
                    flag_preemption :=
                      if t.timeslice - 1 = 0 then true else t.flag_preemption} :: rest}
        else s0
  let r := tick_wake (s0.tick) s1.q_waiting s1 false
  if r.2 then {r.1 with q_ready := flag_running r.1.q_ready} else r.1

/-- mrbc_create_task of rrt0.c, for a caller-supplied TCB (the NULL-argument
    path merely allocates the record the caller otherwise passes).  The
    external outcomes of mrbc_vm_open and mrbc_load_mrb are parameters; a
    `none` result models the NULL / 0 error returns. -/
def mrbc_create_task (vm_open_ok : Bool) (load_ok : Bool) (tcb : MrbcTcb)
    (s : SchedState) : Option (MrbcTcb × SchedState) :=
  let t := {tcb with timeslice := TIMESLICE_TICK, priority_preemption := tcb.priority}
  if t.state = TaskState.DOMANT then
    some (t, q_insert_task t s)
  else if vm_open_ok = false then none
  else if load_ok = false then none
  else
    let t1 := {t with vm_open := true}
    some (t1, q_insert_task t1 s)

/-- One iteration of the mrbc_run dispatcher loop (the default build with a
    hardware timer).  `res` is the external result of mrbc_vm_run; the VM is
    assumed not to invoke scheduler operations during the slice, so those are
    sequenced as separate steps.  The first component is `some 0` exactly when
    the C loop hits `break` and mrbc_run returns 0. -/
def mrbc_run_step (res : Int) (s : SchedState) : Option Int × SchedState :=
  match s.q_ready with
  | [] => (none, s)
  | tcb :: rest =>
      let t := {tcb with state := TaskState.RUNNING, flag_preemption := false}
      let s0 := {s with q_ready := t :: rest}
      if res < 0 then
        let s1 := q_delete_task t s0
        let t2 := {t with state := TaskState.DOMANT}
        let s2 := q_insert_task t2 s1
        let s3 := mapTcbById t2.id (fun u => {u with vm_open := false}) s2
        if s3.q_ready = [] ∧ s3.q_waiting = [] ∧ s3.q_suspended = [] then (some 0, s3)
        else (none, s3)
      else
        let t3 := {t with state := TaskState.READY}
        let s4 := mapTcbById t.id (fun u => {u with state := TaskState.READY}) s0
        if t.timeslice = 0 then
          let s5 := q_delete_task t3 s4
          let t4 := {t3 with timeslice := TIMESLICE_TICK}
          (none, q_insert_task t4 s5)
        else (none, s4)

/-- Guest binding c_sleep (FIXNUM branch): seconds are converted to
    milliseconds by multiplying by 1000 before the uint32_t conversion. -/
def c_sleep (vm : Nat) (n : Int) (s : SchedState) : SchedState :=
  match find_requested_task vm s with
  | none => s
  | some tcb => (mrbc_sleep_ms tcb (toU32 (n * 1000)) s).2

/-- Guest binding c_sleep_ms. -/
def c_sleep_ms (vm : Nat) (n : Int) (s : SchedState) : SchedState :=
  match find_requested_task vm s with
  | none => s
  | some tcb => (mrbc_sleep_ms tcb (toU32 n) s).2

/-- Guest binding c_relinquish. -/
def c_relinquish (vm : Nat) (s : SchedState) : SchedState :=
  match find_requested_task vm s with
  | none => s
  | some tcb => (mrbc_relinquish tcb s).2

/-- Guest binding c_change_priority. -/
def c_change_priority (vm : Nat) (p : Int) (s : SchedState) : SchedState :=
  match find_requested_task vm s with
  | none => s
  | some tcb => (mrbc_change_priority tcb p s).2

/-- Guest binding c_suspend_task. -/
def c_suspend_task (vm : Nat) (s : SchedState) : SchedState :=
  match find_requested_task vm s with
  | none => s
  | some tcb => (mrbc_suspend_task tcb s).2

/-- Guest binding c_resume_task. -/
def c_resume_task (vm : Nat) (s : SchedState) : SchedState :=
  match find_requested_task vm s with
  | none => s
  | some tcb => (mrbc_resume_task tcb s).2

/-- Guest binding c_mutex_lock: `assert( tcb != NULL )` aborts when the VM is
    not on the ready queue; the abort is modelled as `none`. -/
def c_mutex_lock (vm : Nat) (m : MrbcMutex) (s : SchedState) :
    Option (MrbcMutex × SchedState) :=
  match find_requested_task vm s with
  | none => none
  | some tcb =>
      let r := mrbc_mutex_lock m tcb s
      some (r.1, r.2.2)

/-- Guest binding c_mutex_unlock: `assert( tcb != NULL )` aborts when the VM
    is not on the ready queue; the abort is modelled as `none`. -/
def c_mutex_unlock (vm : Nat) (m : MrbcMutex) (s : SchedState) :
    Option (MrbcMutex × SchedState) :=
  match find_requested_task vm s with
  | none => none
  | some _ => some (mrbc_mutex_unlock m s)

/-- All queued TCBs of a state. -/
def allTcbs (s : SchedState) : List MrbcTcb :=
  s.q_domant ++ s.q_ready ++ s.q_waiting ++ s.q_suspended

/-- Well-formedness used as a hypothesis: queued TCBs have pairwise distinct
    identities (distinct C objects). -/
def idsNodup (s : SchedState) : Prop :=
  ((allTcbs s).map (fun t => t.id)).Nodup

instance (s : SchedState) : Decidable (idsNodup s) := by
  unfold idsNodup
  infer_instance

/-- Sample fixtures for witnesses and counterexamples. -/
def tcbA : MrbcTcb :=
  { id := 1, state := TaskState.RUNNING, priority := 128, priority_preemption := 128,
    timeslice := 10, reason := TaskReason.NONE, wakeup_tick := 0, mutex := 0,
    vmId := 11, flag_preemption := false, vm_open := true }

def tcbB : MrbcTcb :=
  { id := 2, state := TaskState.READY, priority := 128, priority_preemption := 128,
    timeslice := 10, reason := TaskReason.NONE, wakeup_tick := 0, mutex := 0,
    vmId := 12, flag_preemption := false, vm_open := true }

def tcbW : MrbcTcb :=
  { id := 3, state := TaskState.WAITING, priority := 100, priority_preemption := 100,
    timeslice := 0, reason := TaskReason.MUTEX, wakeup_tick := 0, mutex := 7,
    vmId := 13, flag_preemption := false, vm_open := true }

def tcbT3 : MrbcTcb :=
  { id := 4, state := TaskState.RUNNING, priority := 128, priority_preemption := 128,
    timeslice := 3, reason := TaskReason.NONE, wakeup_tick := 0, mutex := 0,
    vmId := 14, flag_preemption := false, vm_open := true }

def tcbDorm : MrbcTcb :=
  { id := 5, state := TaskState.DOMANT, priority := 77, priority_preemption := 0,
    timeslice := 0, reason := TaskReason.NONE, wakeup_tick := 0, mutex := 0,
    vmId := 0, flag_preemption := false, vm_open := false }

def mutexM : MrbcMutex := { id := 7, lock := true, tcbId := 1 }

def emptySched : SchedState :=
  { q_domant := [], q_ready := [], q_waiting := [], q_suspended := [], tick := 0 }

def schedA : SchedState :=
  { q_domant := [], q_ready := [tcbA], q_waiting := [], q_suspended := [], tick := 0 }

def schedT3 : SchedState :=
  { q_domant := [], q_ready := [tcbT3], q_waiting := [], q_suspended := [], tick := 0 }

def schedAW : SchedState :=
  { q_domant := [], q_ready := [tcbA], q_waiting := [tcbW], q_suspended := [], tick := 0 }

/- Helper lemmas about the queue primitives. -/

theorem getQueue_setQueue_same (st : TaskState) (s : SchedState) (q : List MrbcTcb) :
    getQueue st (setQueue st s q) = q := by
  cases st <;> rfl

theorem getQueue_setQueue_ne (st st' : TaskState) (s : SchedState) (q : List MrbcTcb)
    (h : queue_of st ≠ queue_of st') :
    getQueue st (setQueue st' s q) = getQueue st s := by
  cases st <;> cases st' <;> first | rfl | exact absurd rfl h

theorem setQueue_getQueue (st : TaskState) (s : SchedState) :
    setQueue st s (getQueue st s) = s := by
  cases st <;> rfl

theorem q_insert_list_eq (x : MrbcTcb) (l : List MrbcTcb) :
    q_insert_list x l =
      l.takeWhile (fun y => decide (y.priority_preemption ≤ x.priority_preemption)) ++
        x :: l.dropWhile (fun y => decide (y.priority_preemption ≤ x.priority_preemption)) := by
  induction l with
  | nil => rfl
  | cons y ys ih =>
      by_cases h : x.priority_preemption < y.priority_preemption
      · have h1 : ¬ (y.priority_preemption ≤ x.priority_preemption) := Nat.not_le.mpr h
        simp [q_insert_list, h, List.takeWhile_cons, List.dropWhile_cons, h1]
      · have h1 : y.priority_preemption ≤ x.priority_preemption := Nat.not_lt.mp h
        simp [q_insert_list, h, List.takeWhile_cons, List.dropWhile_cons, h1, ih]

theorem mem_q_insert_list {z x : MrbcTcb} {l : List MrbcTcb} :
    z ∈ q_insert_list x l ↔ z = x ∨ z ∈ l := by
  induction l with
  | nil => simp [q_insert_list]
  | cons y ys ih =>
      by_cases h : x.priority_preemption < y.priority_preemption
      · simp only [q_insert_list, if_pos h, List.mem_cons]
      · simp only [q_insert_list, if_neg h, List.mem_cons, ih]
        tauto

theorem self_mem_q_insert_list (x : MrbcTcb) (l : List MrbcTcb) :
    x ∈ q_insert_list x l :=
  mem_q_insert_list.mpr (Or.inl rfl)

theorem q_insert_list_sorted (x : MrbcTcb) (l : List MrbcTcb)
    (h : List.Pairwise (fun a b => a.priority_preemption ≤ b.priority_preemption) l) :
    List.Pairwise (fun a b => a.priority_preemption ≤ b.priority_preemption)
      (q_insert_list x l) := by
  induction l with
  | nil => simp [q_insert_list]
  | cons y ys ih =>
      rcases List.pairwise_cons.mp h with ⟨hy, hys⟩
      by_cases hlt : x.priority_preemption < y.priority_preemption
      · simp only [q_insert_list, if_pos hlt]
        refine List.pairwise_cons.mpr ⟨?_, h⟩
        intro z hz
        rcases List.mem_cons.mp hz with rfl | hz2
        · exact Nat.le_of_lt hlt
        · exact Nat.le_trans (Nat.le_of_lt hlt) (hy z hz2)
      · simp only [q_insert_list, if_neg hlt]
        refine List.pairwise_cons.mpr ⟨?_, ih hys⟩
        intro z hz
        rcases mem_q_insert_list.mp hz with rfl | hz2
        · exact Nat.not_lt.mp hlt
        · exact hy z hz2

theorem q_delete_list_of_not_mem (i : Nat) (l : List MrbcTcb)
    (h : ∀ t ∈ l, t.id ≠ i) : q_delete_list i l = l := by
  induction l with
  | nil => rfl
  | cons y ys ih =>
      have hy : y.id ≠ i := h y (List.mem_cons_self y ys)
      simp [q_delete_list, hy, ih (fun t ht => h t (List.mem_cons_of_mem y ht))]

theorem q_delete_list_append (i : Nat) (l1 l2 : List MrbcTcb) (u : MrbcTcb)
    (hu : u.id = i) (h1 : ∀ t ∈ l1, t.id ≠ i) :
    q_delete_list i (l1 ++ u :: l2) = l1 ++ l2 := by
  induction l1 with
  | nil => simp [q_delete_list, hu]
  | cons y ys ih =>
      have hy : y.id ≠ i := h1 y (List.mem_cons_self y ys)
      simp [q_delete_list, hy, ih (fun t ht => h1 t (List.mem_cons_of_mem y ht))]

theorem map_upd_of_not_mem (i : Nat) (f : MrbcTcb → MrbcTcb) (l : List MrbcTcb)
    (h : ∀ t ∈ l, t.id ≠ i) :
    l.map (fun t => if t.id = i then f t else t) = l := by
  induction l with
  | nil => rfl
  | cons y ys ih =>
      have hy : y.id ≠ i := h y (List.mem_cons_self y ys)
      simp [hy, ih (fun t ht => h t (List.mem_cons_of_mem y ht))]

theorem find?_eq_some_split {p : MrbcTcb → Bool} {l : List MrbcTcb} {a : MrbcTcb}
    (h : l.find? p = some a) :
    p a = true ∧ ∃ l1 l2, l = l1 ++ a :: l2 ∧ ∀ u ∈ l1, p u = false := by
  induction l with
  | nil => simp [List.find?] at h
  | cons y ys ih =>
      by_cases hy : p y = true
      · rw [List.find?_cons_of_pos _ hy] at h
        injection h with h
        subst h
        exact ⟨hy, [], ys, rfl, by simp⟩
      · rw [List.find?_cons_of_neg _ (by simpa using hy)] at h
        rcases ih h with ⟨hpa, l1, l2, hsplit, hl1⟩
        refine ⟨hpa, y :: l1, l2, by simp [hsplit], ?_⟩
        intro u hu
        rcases List.mem_cons.mp hu with rfl | hu2
        · simpa using hy
        · exact hl1 u hu2

theorem getQueue_ready_of (tcb : MrbcTcb) (s : SchedState)
    (h : tcb.state = TaskState.READY ∨ tcb.state = TaskState.RUNNING) :
    getQueue tcb.state s = s.q_ready := by
  rcases h with h | h <;> rw [h] <;> rfl

theorem setQueue_ready_of (tcb : MrbcTcb) (s : SchedState) (q : List MrbcTcb)
    (h : tcb.state = TaskState.READY ∨ tcb.state = TaskState.RUNNING) :
    setQueue tcb.state s q = {s with q_ready := q} := by
  rcases h with h | h <;> rw [h] <;> rfl

theorem q_delete_task_ready_of (tcb : MrbcTcb) (s : SchedState)
    (h : tcb.state = TaskState.READY ∨ tcb.state = TaskState.RUNNING) :
    q_delete_task tcb s = {s with q_ready := q_delete_list tcb.id s.q_ready} := by
  simp only [q_delete_task]
  rw [getQueue_ready_of tcb s h, setQueue_ready_of tcb s _ h]

theorem q_insert_task_ready_of (tcb : MrbcTcb) (s : SchedState)
    (h : tcb.state = TaskState.READY ∨ tcb.state = TaskState.RUNNING) :
    q_insert_task tcb s = {s with q_ready := q_insert_list tcb s.q_ready} := by
  simp only [q_insert_task]
  rw [getQueue_ready_of tcb s h, setQueue_ready_of tcb s _ h]

theorem q_delete_task_of_waiting (tcb : MrbcTcb) (s : SchedState)
    (h : tcb.state = TaskState.WAITING) :
    q_delete_task tcb s = {s with q_waiting := q_delete_list tcb.id s.q_waiting} := by
  simp only [q_delete_task]
  rw [h]
  rfl

theorem q_insert_task_of_waiting (tcb : MrbcTcb) (s : SchedState)
    (h : tcb.state = TaskState.WAITING) :
    q_insert_task tcb s = {s with q_waiting := q_insert_list tcb s.q_waiting} := by
  simp only [q_insert_task]
  rw [h]
  rfl

theorem q_delete_task_of_suspended (tcb : MrbcTcb) (s : SchedState)
    (h : tcb.state = TaskState.SUSPENDED) :
    q_delete_task tcb s = {s with q_suspended := q_delete_list tcb.id s.q_suspended} := by
  simp only [q_delete_task]
  rw [h]
  rfl

theorem q_insert_task_of_suspended (tcb : MrbcTcb) (s : SchedState)
    (h : tcb.state = TaskState.SUSPENDED) :
    q_insert_task tcb s = {s with q_suspended := q_insert_list tcb s.q_suspended} := by
  simp only [q_insert_task]
  rw [h]
  rfl

theorem q_insert_task_of_domant (tcb : MrbcTcb) (s : SchedState)
    (h : tcb.state = TaskState.DOMANT) :
    q_insert_task tcb s = {s with q_domant := q_insert_list tcb s.q_domant} := by
  simp only [q_insert_task]
  rw [h]
  rfl

theorem nodup_split_ne {l w1 w2 : List MrbcTcb} {t : MrbcTcb}
    (hn : (l.map (fun u => u.id)).Nodup) (hs : l = w1 ++ t :: w2) :
    (∀ u ∈ w1, u.id ≠ t.id) ∧ (∀ u ∈ w2, u.id ≠ t.id) := by
  subst hs
  rw [List.map_append, List.map_cons] at hn
  rcases List.nodup_append.mp hn with ⟨h1, h2, hdisj⟩
  constructor
  · intro u hu heq
    exact (List.disjoint_left.mp hdisj (List.mem_map_of_mem _ hu))
      (heq ▸ List.mem_cons_self t.id _)
  · intro u hu heq
    rcases List.nodup_cons.mp h2 with ⟨hnot, _⟩
    exact hnot (heq ▸ List.mem_map_of_mem _ hu)

theorem flag_running_mem {u : MrbcTcb} {l : List MrbcTcb}
    (hu : u ∈ flag_running l) (hr : u.state = TaskState.RUNNING) :
    u.flag_preemption = true := by
  rcases List.mem_map.mp hu with ⟨v, _, hvu⟩
  by_cases h : v.state = TaskState.RUNNING
  · rw [if_pos h] at hvu
    rw [← hvu]
  · rw [if_neg h] at hvu
    rw [← hvu] at hr
    exact absurd hr h

theorem mrbc_sleep_ms_q_waiting (tcb : MrbcTcb) (ms : Nat) (s : SchedState) :
    (mrbc_sleep_ms tcb ms s).2.q_waiting =
      (q_insert_list {tcb with timeslice := 0, state := TaskState.WAITING,
                               reason := TaskReason.SLEEP,
                               wakeup_tick := (s.tick + ms) % UINT32_LIMIT}
        (q_delete_task tcb s).q_waiting).map
        (fun u => if u.id = tcb.id then {u with flag_preemption := true} else u) := by
  rfl

theorem mrbc_sleep_ms_waiting_mem (tcb : MrbcTcb) (ms : Nat) (s : SchedState) :
    ∃ u ∈ (mrbc_sleep_ms tcb ms s).2.q_waiting,
      u.id = tcb.id ∧ u.wakeup_tick = (s.tick + ms) % UINT32_LIMIT ∧
      u.state = TaskState.WAITING ∧ u.timeslice = 0 ∧ u.reason = TaskReason.SLEEP := by
  rw [mrbc_sleep_ms_q_waiting]
  refine ⟨_, List.mem_map_of_mem _ (self_mem_q_insert_list _ _), ?_⟩
  simp

/-- Claim C1: for every detached TCB and every recognized task state,
q_insert_task inserts the TCB into the queue selected by its state
immediately before the first existing element whose priority_preemption is
strictly greater than the inserted TCB's (hence after all elements with equal
priority_preemption), leaves every other queue unchanged, and when the
selected queue is sorted ascending by priority_preemption the queue stays
sorted, with FIFO order among equal keys. -/
theorem q_insert_task_position (t : MrbcTcb) (s : SchedState) :
    getQueue t.state (q_insert_task t s) =
      (getQueue t.state s).takeWhile
          (fun y => decide (y.priority_preemption ≤ t.priority_preemption)) ++
        t :: (getQueue t.state s).dropWhile
          (fun y => decide (y.priority_preemption ≤ t.priority_preemption))
    ∧ (∀ st : TaskState, queue_of st ≠ queue_of t.state →
        getQueue st (q_insert_task t s) = getQueue st s)
    ∧ (List.Pairwise (fun a b => a.priority_preemption ≤ b.priority_preemption)
          (getQueue t.state s) →
       List.Pairwise (fun a b => a.priority_preemption ≤ b.priority_preemption)
          (getQueue t.state (q_insert_task t s))) := by
  refine ⟨?_, ?_, ?_⟩
  · rw [q_insert_task, getQueue_setQueue_same, q_insert_list_eq]
  · intro st hst
    rw [q_insert_task, getQueue_setQueue_ne st t.state _ _ hst]
  · intro hs
    rw [q_insert_task, getQueue_setQueue_same]
    exact q_insert_list_sorted t _ hs

/-- Witness for claim C1 at a concrete input: inserting a READY task of equal
priority behind the existing one keeps the ready queue sorted. -/
theorem q_insert_task_position_witness :
    List.Pairwise (fun a b => a.priority_preemption ≤ b.priority_preemption)
      (getQueue tcbB.state (q_insert_task tcbB schedA)) := by
  have h := q_insert_task_position tcbB schedA
  exact h.2.2 (by decide)

/-- Claim C9: for every TCB with a recognized state, q_delete_task removes
exactly the pointer-equal TCB from the queue selected by its state, leaving
the relative order of the remaining elements unchanged, and leaves the other
queues unchanged; when the TCB is not on the selected queue (including the
empty queue) the whole state is unchanged.  (Pointer equality is identity of
the `id` field; resetting the removed TCB's intrusive `next` link to NULL is
implicit in the list representation of detachment.) -/
theorem q_delete_task_frame (t : MrbcTcb) (s : SchedState) :
    ((∀ u ∈ getQueue t.state s, u.id ≠ t.id) → q_delete_task t s = s)
    ∧ (∀ l1 l2 : List MrbcTcb, getQueue t.state s = l1 ++ t :: l2 →
        (∀ u ∈ l1, u.id ≠ t.id) →
        getQueue t.state (q_delete_task t s) = l1 ++ l2)
    ∧ (∀ st : TaskState, queue_of st ≠ queue_of t.state →
        getQueue st (q_delete_task t s) = getQueue st s) := by
  refine ⟨?_, ?_, ?_⟩
  · intro h
    rw [q_delete_task, q_delete_list_of_not_mem t.id _ h, setQueue_getQueue]
  · intro l1 l2 hsplit h1
    rw [q_delete_task, getQueue_setQueue_same, hsplit,
        q_delete_list_append t.id l1 l2 t rfl h1]
  · intro st hst
    rw [q_delete_task, getQueue_setQueue_ne st t.state _ _ hst]

/-- Witness for claim C9 at concrete inputs: deleting a TCB absent from the
ready queue changes nothing, and deleting the present one unlinks it. -/
theorem q_delete_task_frame_witness :
    q_delete_task tcbB schedA = schedA ∧
    getQueue tcbA.state (q_delete_task tcbA schedA) = [] := by
  constructor
  · exact (q_delete_task_frame tcbB schedA).1 (by decide)
  · exact (q_delete_task_frame tcbA schedA).2.1 [] [] (by decide) (by decide)

/-- Claim C10: for every integer argument n, the guest binding sleep(n)
performs exactly the state change of sleep_ms(n*1000), and the caller's
wakeup_tick is set to the current tick plus n*1000 (converted to uint32),
reduced modulo 2^32. -/
theorem c_sleep_eq_c_sleep_ms (vm : Nat) (n : Int) (s : SchedState) :
    c_sleep vm n s = c_sleep_ms vm (n * 1000) s
    ∧ (∀ tcb : MrbcTcb, find_requested_task vm s = some tcb →
        ∃ u ∈ (c_sleep vm n s).q_waiting, u.id = tcb.id ∧
          u.wakeup_tick = (s.tick + toU32 (n * 1000)) % UINT32_LIMIT) := by
  constructor
  · rfl
  · intro tcb hfind
    simp only [c_sleep, hfind]
    rcases mrbc_sleep_ms_waiting_mem tcb (toU32 (n * 1000)) s with ⟨u, hu, h1, h2, _⟩
    exact ⟨u, hu, h1, h2⟩

/-- Witness for claim C10 at a concrete input. -/
theorem c_sleep_eq_c_sleep_ms_witness :
    c_sleep 11 2 schedA = c_sleep_ms 11 2000 schedA ∧
    ∃ u ∈ (c_sleep 11 2 schedA).q_waiting, u.id = tcbA.id ∧
      u.wakeup_tick = (schedA.tick + toU32 (2 * 1000)) % UINT32_LIMIT := by
  have h := c_sleep_eq_c_sleep_ms 11 2 schedA
  exact ⟨h.1, h.2 tcbA (by decide)⟩

/-- Counterexample to claim C7: with no TCB on the ready queue for the
calling VM, c_mutex_lock is not a no-op returning the state unchanged; it
hits `assert( tcb != NULL )` (modelled as `none`; with asserts compiled out
it would lock the mutex with a NULL owner). -/
theorem c_mutex_lock_not_noop_cex :
    c_mutex_lock 0 mutexM emptySched ≠ some (mutexM, emptySched) ∧
    c_mutex_lock 0 mutexM emptySched = none := by
  decide

/-- Claim C7 (amended): when the calling VM has no TCB on the ready queue,
the six guarded guest bindings (sleep, sleep_ms, relinquish, change_priority,
suspend_task, resume_task) are no-ops that perform no state change, while
the two mutex bindings (mutex_lock, mutex_unlock) instead fail their
`assert( tcb != NULL )` rather than returning unchanged. -/
theorem bindings_noop_when_not_found (vm : Nat) (n p : Int) (m : MrbcMutex)
    (s : SchedState) (h : find_requested_task vm s = none) :
    c_sleep vm n s = s ∧ c_sleep_ms vm n s = s ∧ c_relinquish vm s = s ∧
    c_change_priority vm p s = s ∧ c_suspend_task vm s = s ∧
    c_resume_task vm s = s ∧ c_mutex_lock vm m s = none ∧
    c_mutex_unlock vm m s = none := by
  refine ⟨?_, ?_, ?_, ?_, ?_, ?_, ?_, ?_⟩ <;>
    simp [c_sleep, c_sleep_ms, c_relinquish, c_change_priority, c_suspend_task,
          c_resume_task, c_mutex_lock, c_mutex_unlock, h]

/-- Witness for claim C7 (amended) at a concrete input. -/
theorem bindings_noop_when_not_found_witness :
    c_sleep 99 1 schedA = schedA ∧ c_mutex_unlock 99 mutexM schedA = none := by
  have h := bindings_noop_when_not_found 99 1 5 mutexM schedA (by decide)
  exact ⟨h.1, h.2.2.2.2.2.2.2⟩

/-- Counterexample to claim C3: suspending a RUNNING task with a full
timeslice yields a SUSPENDED task whose timeslice is still 10 > 0
(mrbc_suspend_task never clears the timeslice). -/
theorem timeslice_positive_suspended_cex :
    (mrbc_suspend_task tcbA schedA).2.q_suspended.map
        (fun u => (u.state, u.timeslice)) = [(TaskState.SUSPENDED, 10)] := by
  decide

/-- Claim C3 (amended): only the sleep path zeroes the timeslice: a task
entering WAITING through mrbc_sleep_ms has timeslice 0 while waiting, but
mrbc_suspend_task and a blocking mrbc_mutex_lock carry the task's previous
timeslice (possibly positive) into SUSPENDED respectively WAITING. -/
theorem timeslice_zero_only_for_sleep (tcb : MrbcTcb) (ms : Nat) (m : MrbcMutex)
    (s : SchedState) :
    (∃ u ∈ (mrbc_sleep_ms tcb ms s).2.q_waiting,
        u.id = tcb.id ∧ u.state = TaskState.WAITING ∧ u.timeslice = 0)
    ∧ ((mrbc_suspend_task tcb s).1.timeslice = tcb.timeslice ∧
       (mrbc_suspend_task tcb s).1.state = TaskState.SUSPENDED)
    ∧ (m.lock = true →
        (mrbc_mutex_lock m tcb s).2.1.timeslice = tcb.timeslice ∧
        (mrbc_mutex_lock m tcb s).2.1.state = TaskState.WAITING) := by
  refine ⟨?_, ⟨rfl, rfl⟩, ?_⟩
  · rcases mrbc_sleep_ms_waiting_mem tcb ms s with ⟨u, hu, h1, _, h3, h4, _⟩
    exact ⟨u, hu, h1, h3, h4⟩
  · intro hm
    have hne : ¬ (m.lock = false) := by rw [hm]; intro hc; cases hc
    simp only [mrbc_mutex_lock, if_neg hne]
    exact ⟨trivial, trivial⟩

/-- Witness for claim C3 (amended) at concrete inputs. -/
theorem timeslice_zero_only_for_sleep_witness :
    (mrbc_suspend_task tcbA schedA).1.timeslice = tcbA.timeslice ∧
    (mrbc_mutex_lock mutexM tcbA schedA).2.1.timeslice = tcbA.timeslice := by
  have h := timeslice_zero_only_for_sleep tcbA 5 mutexM schedA
  exact ⟨h.2.1.1, (h.2.2 (by decide)).1⟩

/-- Claim C5 evaluation (code bug): mrbc_create_task on a reused DORMANT TCB
resets timeslice to TIMESLICE_TICK and priority_preemption to priority and
opens no VM, but leaves the state DOMANT, so q_insert_task enqueues the task
on the dormant queue and the ready queue stays empty; the spec says the task
re-enters READY on the ready queue. -/
theorem mrbc_create_task_dormant_eval :
    mrbc_create_task true true tcbDorm emptySched =
      some ({tcbDorm with timeslice := TIMESLICE_TICK,
                          priority_preemption := tcbDorm.priority},
        { q_domant := [{tcbDorm with timeslice := TIMESLICE_TICK,
                                     priority_preemption := tcbDorm.priority}],
          q_ready := [], q_waiting := [], q_suspended := [], tick := 0 }) := by
  rfl

/-- Counterexample to claim C8: suspend_task followed by resume_task does not
re-replenish the timeslice; a task suspended with timeslice 3 resumes READY
with timeslice 3, not TIMESLICE_TICK. -/
theorem suspend_resume_timeslice_cex :
    (mrbc_resume_task (mrbc_suspend_task tcbT3 schedT3).1
        (mrbc_suspend_task tcbT3 schedT3).2).1.timeslice = 3 ∧
    (mrbc_resume_task (mrbc_suspend_task tcbT3 schedT3).1
        (mrbc_suspend_task tcbT3 schedT3).2).1.timeslice ≠ TIMESLICE_TICK ∧
    (mrbc_resume_task (mrbc_suspend_task tcbT3 schedT3).1
        (mrbc_suspend_task tcbT3 schedT3).2).1.state = TaskState.READY := by
  decide
/-- Claim C8 (amended): for every READY or RUNNING task on the ready queue,
suspend_task followed by resume_task returns the task to READY on the ready
queue with its priority, priority_preemption and timeslice unchanged (the
timeslice is carried over, not re-replenished to TIMESLICE_TICK), positioned
after all existing tasks of equal or smaller priority_preemption
(FIFO-fresh), while the suspended queue returns to its original value. -/
theorem suspend_resume_roundtrip (tcb : MrbcTcb) (s : SchedState)
    (r1 r2 : List MrbcTcb)
    (hstate : tcb.state = TaskState.READY ∨ tcb.state = TaskState.RUNNING)
    (hsplit : s.q_ready = r1 ++ tcb :: r2)
    (hr1 : ∀ u ∈ r1, u.id ≠ tcb.id) (hr2 : ∀ u ∈ r2, u.id ≠ tcb.id)
    (hsusp : ∀ u ∈ s.q_suspended, u.id ≠ tcb.id) :
    (mrbc_resume_task (mrbc_suspend_task tcb s).1 (mrbc_suspend_task tcb s).2).1 =
      {tcb with state := TaskState.READY, flag_preemption := true}
    ∧ (mrbc_resume_task (mrbc_suspend_task tcb s).1 (mrbc_suspend_task tcb s).2).2.q_ready =
        (flag_running (r1 ++ r2)).takeWhile
            (fun y => decide (y.priority_preemption ≤ tcb.priority_preemption)) ++
          {tcb with state := TaskState.READY, flag_preemption := true} ::
          (flag_running (r1 ++ r2)).dropWhile
            (fun y => decide (y.priority_preemption ≤ tcb.priority_preemption))
    ∧ (mrbc_resume_task (mrbc_suspend_task tcb s).1 (mrbc_suspend_task tcb s).2).2.q_suspended =
        s.q_suspended := by
  have hr12 : ∀ u ∈ r1 ++ r2, u.id ≠ tcb.id := by
    intro u hu
    rcases List.mem_append.mp hu with h | h
    · exact hr1 u h
    · exact hr2 u h
  have hSW1 : ∀ u ∈ s.q_suspended.takeWhile
      (fun y => decide (y.priority_preemption ≤ tcb.priority_preemption)), u.id ≠ tcb.id :=
    fun u hu => hsusp u ((List.takeWhile_sublist _).subset hu)
  have hSW2 : ∀ u ∈ s.q_suspended.dropWhile
      (fun y => decide (y.priority_preemption ≤ tcb.priority_preemption)), u.id ≠ tcb.id :=
    fun u hu => hsusp u ((List.dropWhile_sublist _).subset hu)
  have hS1 : (mrbc_suspend_task tcb s).2 =
      { q_domant := s.q_domant.map
          (fun u => if u.id = tcb.id then {u with flag_preemption := true} else u)
        q_ready := r1 ++ r2
        q_waiting := s.q_waiting.map
          (fun u => if u.id = tcb.id then {u with flag_preemption := true} else u)
        q_suspended := s.q_suspended.takeWhile
            (fun y => decide (y.priority_preemption ≤ tcb.priority_preemption)) ++
          {tcb with state := TaskState.SUSPENDED, flag_preemption := true} ::
          s.q_suspended.dropWhile
            (fun y => decide (y.priority_preemption ≤ tcb.priority_preemption))
        tick := s.tick } := by
    simp only [mrbc_suspend_task]
    rw [q_delete_task_ready_of tcb s hstate, hsplit,
        q_delete_list_append tcb.id r1 r2 tcb rfl hr1,
        q_insert_task_of_suspended _ _ rfl]
    simp only [mapTcbById]
    rw [map_upd_of_not_mem _ _ _ hr12, q_insert_list_eq]
    simp only [List.map_append, List.map_cons]
    rw [map_upd_of_not_mem _ _ _ hSW1, map_upd_of_not_mem _ _ _ hSW2]
    simp
  have h1 : (mrbc_suspend_task tcb s).1 =
      {tcb with state := TaskState.SUSPENDED, flag_preemption := true} := rfl
  refine ⟨rfl, ?_, ?_⟩
  · rw [h1, hS1]
    simp only [mrbc_resume_task]
    rw [q_delete_task_of_suspended _ _ rfl]
    rw [q_insert_task_ready_of _ _ (Or.inl rfl)]
    rw [q_insert_list_eq]
  · rw [h1, hS1]
    simp only [mrbc_resume_task]
    rw [q_delete_task_of_suspended _ _ rfl]
    rw [q_insert_task_ready_of _ _ (Or.inl rfl)]
    show q_delete_list tcb.id _ = s.q_suspended
    rw [q_delete_list_append tcb.id _ _
          {tcb with state := TaskState.SUSPENDED, flag_preemption := true} rfl hSW1]
    exact List.takeWhile_append_dropWhile _ _

/-- Witness for claim C8 (amended) at a concrete input. -/
theorem suspend_resume_roundtrip_witness :
    (mrbc_resume_task (mrbc_suspend_task tcbT3 schedT3).1
        (mrbc_suspend_task tcbT3 schedT3).2).2.q_suspended = schedT3.q_suspended ∧
    (mrbc_resume_task (mrbc_suspend_task tcbT3 schedT3).1
        (mrbc_suspend_task tcbT3 schedT3).2).1 =
      {tcbT3 with state := TaskState.READY, flag_preemption := true} := by
  have h := suspend_resume_roundtrip tcbT3 schedT3 [] [] (Or.inr rfl) rfl
    (by decide) (by decide) (by decide)
  exact ⟨h.2.2, h.1⟩
/-- Claim C2: under the unlock preconditions (owner = caller, locked), if the
waiting queue holds a task whose reason is MUTEX and whose recorded mutex is
this mutex, the first such task in queue order becomes the mutex's owner, is
detached from the waiting queue, set READY and inserted on the ready queue
(before the first strictly greater priority_preemption), the preemption flag
of every RUNNING task is set, and the locked flag is never cleared; with no
such waiter the locked flag is set to 0 and the state is unchanged. -/
theorem mrbc_mutex_unlock_wakes_first (m : MrbcMutex) (caller : MrbcTcb)
    (s : SchedState)
    (hlock : m.lock = true) (howner : m.tcbId = caller.id)
    (hwstate : ∀ u ∈ s.q_waiting, u.state = TaskState.WAITING)
    (hwn : (s.q_waiting.map (fun u => u.id)).Nodup)
    (hrun : ∀ u, u ∈ s.q_domant ∨ u ∈ s.q_waiting ∨ u ∈ s.q_suspended →
              u.state ≠ TaskState.RUNNING) :
    (∀ t, s.q_waiting.find?
        (fun u => decide (u.reason = TaskReason.MUTEX ∧ u.mutex = m.id)) = some t →
      (mrbc_mutex_unlock m s).1.lock = true ∧
      (mrbc_mutex_unlock m s).1.tcbId = t.id ∧
      (∃ w1 w2, s.q_waiting = w1 ++ t :: w2 ∧
        (∀ u ∈ w1, ¬ (u.reason = TaskReason.MUTEX ∧ u.mutex = m.id)) ∧
        (mrbc_mutex_unlock m s).2.q_waiting = w1 ++ w2) ∧
      (mrbc_mutex_unlock m s).2.q_ready =
        flag_running (s.q_ready.takeWhile
            (fun y => decide (y.priority_preemption ≤ t.priority_preemption))) ++
          {t with state := TaskState.READY} ::
          flag_running (s.q_ready.dropWhile
            (fun y => decide (y.priority_preemption ≤ t.priority_preemption))) ∧
      (∀ u, u ∈ (mrbc_mutex_unlock m s).2.q_domant ∨
            u ∈ (mrbc_mutex_unlock m s).2.q_ready ∨
            u ∈ (mrbc_mutex_unlock m s).2.q_waiting ∨
            u ∈ (mrbc_mutex_unlock m s).2.q_suspended →
        u.state = TaskState.RUNNING → u.flag_preemption = true))
    ∧ (s.q_waiting.find?
        (fun u => decide (u.reason = TaskReason.MUTEX ∧ u.mutex = m.id)) = none →
      mrbc_mutex_unlock m s = ({m with lock := false}, s)) := by
  constructor
  · intro t hfind
    rcases find?_eq_some_split hfind with ⟨hpt, w1, w2, hsplit, hw1⟩
    have htmem : t ∈ s.q_waiting := by
      rw [hsplit]
      exact List.mem_append_right _ (List.mem_cons_self _ _)
    have htstate : t.state = TaskState.WAITING := hwstate t htmem
    rcases nodup_split_ne hwn hsplit with ⟨hw1id, hw2id⟩
    have hresult : mrbc_mutex_unlock m s =
        ({m with tcbId := t.id},
         { q_domant := s.q_domant
           q_ready := flag_running
             (q_insert_list {t with state := TaskState.READY} s.q_ready)
           q_waiting := w1 ++ w2
           q_suspended := s.q_suspended
           tick := s.tick }) := by
      simp only [mrbc_mutex_unlock, hfind]
      rw [q_delete_task_of_waiting t s htstate, hsplit,
          q_delete_list_append t.id w1 w2 t rfl hw1id,
          q_insert_task_ready_of _ _ (Or.inl rfl)]
    have hready : (mrbc_mutex_unlock m s).2.q_ready =
        flag_running (s.q_ready.takeWhile
            (fun y => decide (y.priority_preemption ≤ t.priority_preemption))) ++
          {t with state := TaskState.READY} ::
          flag_running (s.q_ready.dropWhile
            (fun y => decide (y.priority_preemption ≤ t.priority_preemption))) := by
      rw [hresult]
      show flag_running (q_insert_list {t with state := TaskState.READY} s.q_ready) = _
      rw [q_insert_list_eq]
      simp [flag_running]
    refine ⟨?_, ?_, ⟨w1, w2, hsplit, ?_, ?_⟩, hready, ?_⟩
    · rw [hresult]
      exact hlock
    · rw [hresult]
    · intro u hu
      have := hw1 u hu
      simpa using this
    · rw [hresult]
    · intro u hu hrunU
      rw [hresult] at hu
      rcases hu with hu | hu | hu | hu
      · exact absurd hrunU (hrun u (Or.inl hu))
      · exact flag_running_mem hu hrunU
      · have humem : u ∈ s.q_waiting := by
          rw [hsplit]
          rcases List.mem_append.mp hu with h | h
          · exact List.mem_append_left _ h
          · exact List.mem_append_right _ (List.mem_cons_of_mem _ h)
        exact absurd hrunU (hrun u (Or.inr (Or.inl humem)))
      · exact absurd hrunU (hrun u (Or.inr (Or.inr hu)))
  · intro hfind
    simp only [mrbc_mutex_unlock, hfind]

/-- Witness for claim C2 at a concrete input: the mutex hands off to the one
MUTEX waiter without the lock ever clearing. -/
theorem mrbc_mutex_unlock_wakes_first_witness :
    (mrbc_mutex_unlock mutexM schedAW).1.lock = true ∧
    (mrbc_mutex_unlock mutexM schedAW).1.tcbId = tcbW.id ∧
    (mrbc_mutex_unlock mutexM schedAW).2.q_ready =
      flag_running (schedAW.q_ready.takeWhile
          (fun y => decide (y.priority_preemption ≤ tcbW.priority_preemption))) ++
        {tcbW with state := TaskState.READY} ::
        flag_running (schedAW.q_ready.dropWhile
          (fun y => decide (y.priority_preemption ≤ tcbW.priority_preemption))) := by
  have hrunq : ∀ u : MrbcTcb,
      u ∈ schedAW.q_domant ∨ u ∈ schedAW.q_waiting ∨ u ∈ schedAW.q_suspended →
      u.state ≠ TaskState.RUNNING := by
    intro u hu
    rcases hu with h | h | h
    · exact absurd h (List.not_mem_nil u)
    · rw [show schedAW.q_waiting = [tcbW] from rfl, List.mem_singleton] at h
      subst h
      decide
    · exact absurd h (List.not_mem_nil u)
  have hc := (mrbc_mutex_unlock_wakes_first mutexM tcbA schedAW (by decide) (by decide)
      (by decide) (by decide) hrunq).1 tcbW (by decide)
  exact ⟨hc.1, hc.2.1, hc.2.2.2.1⟩
/-- Claim C6: in a dispatcher iteration whose VM run returns a negative
(terminal) result, the running head task is removed from the ready queue, set
DOMANT and inserted on the dormant queue with its VM closed and handle
cleared, the waiting and suspended queues are untouched, and the iteration
makes mrbc_run return 0 exactly when the ready, waiting and suspended queues
are then all empty (otherwise the loop continues). -/
theorem mrbc_run_step_terminal (res : Int) (s : SchedState) (tcb : MrbcTcb)
    (rest : List MrbcTcb) (hready : s.q_ready = tcb :: rest) (hres : res < 0)
    (hrest : ∀ u ∈ rest, u.id ≠ tcb.id)
    (hdom : ∀ u ∈ s.q_domant, u.id ≠ tcb.id)
    (hwait : ∀ u ∈ s.q_waiting, u.id ≠ tcb.id)
    (hsusp : ∀ u ∈ s.q_suspended, u.id ≠ tcb.id) :
    (mrbc_run_step res s).2.q_ready = rest ∧
    (mrbc_run_step res s).2.q_waiting = s.q_waiting ∧
    (mrbc_run_step res s).2.q_suspended = s.q_suspended ∧
    (mrbc_run_step res s).2.q_domant =
      s.q_domant.takeWhile
          (fun y => decide (y.priority_preemption ≤ tcb.priority_preemption)) ++
        {tcb with state := TaskState.DOMANT, flag_preemption := false,
                  vm_open := false} ::
        s.q_domant.dropWhile
          (fun y => decide (y.priority_preemption ≤ tcb.priority_preemption)) ∧
    ((mrbc_run_step res s).1 = some 0 ↔
      (rest = [] ∧ s.q_waiting = [] ∧ s.q_suspended = [])) := by
  have hdomT : ∀ u ∈ s.q_domant.takeWhile
      (fun y => decide (y.priority_preemption ≤ tcb.priority_preemption)), u.id ≠ tcb.id :=
    fun u hu => hdom u ((List.takeWhile_sublist _).subset hu)
  have hdomD : ∀ u ∈ s.q_domant.dropWhile
      (fun y => decide (y.priority_preemption ≤ tcb.priority_preemption)), u.id ≠ tcb.id :=
    fun u hu => hdom u ((List.dropWhile_sublist _).subset hu)
  have hdel : q_delete_list tcb.id
      ({tcb with state := TaskState.RUNNING, flag_preemption := false} :: rest) = rest := by
    simp [q_delete_list]
  have hmain : mrbc_run_step res s =
      ((if rest = [] ∧ s.q_waiting = [] ∧ s.q_suspended = [] then some 0 else none),
       { q_domant := s.q_domant.takeWhile
             (fun y => decide (y.priority_preemption ≤ tcb.priority_preemption)) ++
           {tcb with state := TaskState.DOMANT, flag_preemption := false,
                     vm_open := false} ::
           s.q_domant.dropWhile
             (fun y => decide (y.priority_preemption ≤ tcb.priority_preemption))
         q_ready := rest
         q_waiting := s.q_waiting
         q_suspended := s.q_suspended
         tick := s.tick }) := by
    simp only [mrbc_run_step, hready]
    rw [if_pos hres]
    rw [q_delete_task_ready_of _ _ (Or.inr rfl)]
    simp only [hdel]
    rw [q_insert_task_of_domant _ _ rfl]
    simp only [mapTcbById]
    rw [map_upd_of_not_mem _ _ _ hrest, map_upd_of_not_mem _ _ _ hwait,
        map_upd_of_not_mem _ _ _ hsusp, q_insert_list_eq]
    simp only [List.map_append, List.map_cons]
    rw [map_upd_of_not_mem _ _ _ hdomT, map_upd_of_not_mem _ _ _ hdomD]
    by_cases hc : rest = [] ∧ s.q_waiting = [] ∧ s.q_suspended = []
    · simp [hc]
    · simp [hc]
  rw [hmain]
  refine ⟨rfl, rfl, rfl, rfl, ?_⟩
  by_cases hc : rest = [] ∧ s.q_waiting = [] ∧ s.q_suspended = []
  · simp [hc]
  · simp [hc]

/-- Witness for claim C6 at a concrete input: the last task terminates and
the dispatcher returns 0. -/
theorem mrbc_run_step_terminal_witness :
    (mrbc_run_step (-1) schedA).2.q_ready = [] ∧
    (mrbc_run_step (-1) schedA).1 = some 0 := by
  have h := mrbc_run_step_terminal (-1) schedA tcbA [] rfl (by decide)
    (by decide) (by decide) (by decide) (by decide)
  exact ⟨h.1, h.2.2.2.2.mpr ⟨rfl, rfl, rfl⟩⟩
/-- Counterexample to claim C4: a task that calls sleep_ms(0) at tick 0 gets
wakeup_tick = 0, but the tick handler first increments the counter to 1 and
compares with equality, so the task is NOT promoted at the next tick: it is
still WAITING and the ready queue stays empty. -/
theorem sleep_zero_cex :
    (mrbc_tick (mrbc_sleep_ms tcbA 0 schedA).2).q_ready = [] ∧
    (mrbc_tick (mrbc_sleep_ms tcbA 0 schedA).2).q_waiting.map
      (fun u => u.state) = [TaskState.WAITING] := by
  decide

/-- Claim C4 (amended): a task calling sleep_ms(0) at tick T (wakeup_tick =
T + 0) is NOT promoted by the tick handler at the next hardware tick, because
the wakeup predicate compares wakeup_tick with the already incremented
counter T+1; a task calling sleep_ms(1) at tick T is promoted from WAITING
back to READY with timeslice replenished to TIMESLICE_TICK at the next
tick. -/
theorem sleep_wakeup_next_tick (tcb : MrbcTcb) (T : Nat)
    (hst : tcb.state = TaskState.RUNNING) (hT : T < UINT32_LIMIT) :
    ((mrbc_tick (mrbc_sleep_ms tcb 0 (SchedState.mk [] [tcb] [] [] T)).2).q_ready = [] ∧
     (mrbc_tick (mrbc_sleep_ms tcb 0 (SchedState.mk [] [tcb] [] [] T)).2).q_waiting.map
        (fun u => (u.id, u.state)) = [(tcb.id, TaskState.WAITING)]) ∧
    ((mrbc_tick (mrbc_sleep_ms tcb 1 (SchedState.mk [] [tcb] [] [] T)).2).q_waiting = [] ∧
     (mrbc_tick (mrbc_sleep_ms tcb 1 (SchedState.mk [] [tcb] [] [] T)).2).q_ready.map
        (fun u => (u.id, u.state, u.timeslice)) =
       [(tcb.id, TaskState.READY, TIMESLICE_TICK)]) := by
  have hsleep : ∀ ms : Nat, (mrbc_sleep_ms tcb ms (SchedState.mk [] [tcb] [] [] T)).2 =
      SchedState.mk [] []
        [{tcb with timeslice := 0, state := TaskState.WAITING,
                   reason := TaskReason.SLEEP,
                   wakeup_tick := (T + ms) % UINT32_LIMIT,
                   flag_preemption := true}] [] T := by
    intro ms
    simp only [mrbc_sleep_ms]
    rw [q_delete_task_ready_of _ _ (Or.inr hst)]
    simp only [mapTcbById]
    rw [q_insert_task_of_waiting _ _ rfl]
    simp [q_delete_list, q_insert_list]
  have hne : ¬ ((T + 0) % UINT32_LIMIT = (T + 1) % UINT32_LIMIT) := by
    simp only [UINT32_LIMIT] at *
    omega
  constructor
  · rw [hsleep 0]
    simp only [mrbc_tick, tick_wake]
    rw [if_neg (fun h : True ∧ (T + 0) % UINT32_LIMIT = (T + 1) % UINT32_LIMIT =>
          hne h.2)]
    simp
  · rw [hsleep 1]
    simp only [mrbc_tick, tick_wake]
    rw [q_delete_task_of_waiting _ _ rfl]
    rw [q_insert_task_ready_of _ _ (Or.inl rfl)]
    simp [q_delete_list, q_insert_list, flag_running]

/-- Witness for claim C4 (amended) at a concrete input: sleeping 1 ms at
tick 0 wakes at the next tick. -/
theorem sleep_wakeup_next_tick_witness :
    (mrbc_tick (mrbc_sleep_ms tcbA 1 (SchedState.mk [] [tcbA] [] [] 0)).2).q_waiting = [] ∧
    (mrbc_tick (mrbc_sleep_ms tcbA 1 (SchedState.mk [] [tcbA] [] [] 0)).2).q_ready.map
        (fun u => (u.id, u.state, u.timeslice)) =
      [(tcbA.id, TaskState.READY, TIMESLICE_TICK)] := by
  have h := sleep_wakeup_next_tick tcbA 0 rfl (by decide)
  exact h.2
